import Mathlib

/-!
Verification of the esparser tokenizer and parser (src/parser/tokenizer.rs,
src/parser/parser.rs, src/parser/ast.rs) against its specification.

The Rust code is shallowly embedded: the tokenizer's character stream
(`chars : Chars<R>`), its lookahead deque and its slice accumulator become a
`Tokenizer` record of two `List Char` and a `String`; every method becomes a
pure state-passing function.  Scanning loops are defined by structural
recursion on an explicit fuel that the wrapper instantiates with
`remaining + 1`, which is an upper bound on the number of iterations (each
iteration either moves a character out of the stream/queue or reaches a
base case on the next step), so the fuel-exhaustion branch is unreachable
from the wrappers.

Rust's `char::is_alphabetic` / `is_numeric` / `is_whitespace` are full
Unicode-category predicates; they are embedded by Lean's ASCII predicates,
which agree with them on all ASCII source text (all inputs considered in the
claims are ASCII).
-/

/-- Token enumeration from src/parser/tokenizer.rs (enum Token). -/
inductive Token where
  | additionAssignment           -- +=
  | ampersand                    -- &
  | arrow                        -- =>
  | assignment                   -- =
  | asterisk                     -- *
  | bitwiseAndAssignment         -- &=
  | bitwiseOrAssignment          -- |=
  | bitwiseXorAssignment         -- ^=
  | caret                        -- ^
  | colon                        -- :
  | comma                        -- ,
  | constKeyword                 -- const
  | decrement                    -- --
  | divisonAssignment            -- /=
  | dot                          -- .
  | equality                     -- ==
  | exclamationMark              -- !
  | exponentation                -- **
  | exponentationAssignment      -- **=
  | greaterThanOrEqual           -- >=
  | identifierName               -- Identifier.
  | importKeyword                -- import
  | increment                    -- ++
  | inequality                   -- !=
  | leftAngleBracket             -- <
  | leftBrace                    -- left brace
  | leftParenthesis              -- (
  | leftShift                    -- <<
  | leftShiftAssignment          -- <<=
  | leftSquareBracket            -- [
  | lessThanOrEqual              -- <=
  | letKeyword                   -- let
  | logicalAnd                   -- &&
  | logicalAndAssignment         -- &&=
  | logicalNullishAssignment     -- ??=
  | logicalOr                    -- ||
  | logicalOrAssignment          -- ||=
  | minus                        -- -
  | multiLineComment             -- /* ... */
  | multiplicationAssignment     -- *=
  | nullishCoalescingOperator    -- ??
  | numericLiteral               -- Numeric literal
  | optionalChaining             -- ?.
  | percent                      -- %
  | pipe                         -- |
  | plus                         -- +
  | questionMark                 -- ?
  | remainderAssignment          -- %=
  | rightAngleBracket            -- >
  | rightBrace                   -- right brace
  | rightParenthesis             -- )
  | rightShift                   -- >>
  | rightShiftAssignment         -- >>=
  | rightSquareBracket           -- ]
  | semicolon                    -- ;
  | singleLineComment            -- // ...
  | slash                        -- /
  | spread                       -- ...
  | strictEquality               -- ===
  | strictInequality             -- !==
  | stringLiteral                -- String literal
  | subtractionAssignment        -- -=
  | templateLiteral              -- Template literal
  | tilde                        -- ~
  | unsignedRightShift           -- >>>
  | unsignedRightShiftAssignment -- >>>=
  | varKeyword                   -- var
  deriving DecidableEq, Repr

/-- Result of one call to Tokenizer::next_token.  The Rust function returns
`Option<Token>` but can also panic (the `todo!` catch-all for an
unrecognized leading character); `fatal` models that panic. -/
inductive TokenResult where
  | tok : Token → TokenResult
  | eof
  | fatal
  deriving DecidableEq, Repr

/-- Tokenizer state from src/parser/tokenizer.rs: `chars` is the remaining
character stream, `lookaheads` the deque of already-read-but-uncommitted
characters, `slice` the accumulator of the current token's text. -/
structure Tokenizer where
  lookaheads : List Char
  chars : List Char
  slice : String
  deriving DecidableEq, Repr

/-- Constructor Tokenizer::new. -/
def Tokenizer.new (cs : List Char) : Tokenizer :=
  ⟨[], cs, ""⟩

/-- Number of characters not yet committed to the slice; used as a fuel
bound for the scanning loops. -/
def Tokenizer.remaining (t : Tokenizer) : Nat :=
  t.chars.length + t.lookaheads.length

/-- Embedding of Rust `char::is_whitespace` (ASCII fragment). -/
def isWhitespaceCh (c : Char) : Bool := c.isWhitespace

/-- Embedding of Rust `char::is_alphabetic` (ASCII fragment). -/
def isAlphabeticCh (c : Char) : Bool := c.isAlpha

/-- Embedding of Rust `char::is_numeric` (ASCII fragment). -/
def isNumericCh (c : Char) : Bool := c.isDigit

/-- Embedding of Rust `char::is_alphanumeric` (ASCII fragment). -/
def isAlphanumericCh (c : Char) : Bool := c.isAlphanum

/-- Character constant: single quote. -/
def singleQuoteChar : Char := Char.ofNat 39

/-- Character constant: double quote. -/
def doubleQuoteChar : Char := Char.ofNat 34

/-- Character constant: backslash. -/
def backslashChar : Char := Char.ofNat 92

/-- Character constant: opening curly brace. -/
def leftBraceChar : Char := Char.ofNat 123

/-- Character constant: closing curly brace. -/
def rightBraceChar : Char := Char.ofNat 125

/-- Method Tokenizer::peek_char: read one character from the stream, push it
onto the lookahead deque, and return it; `none` at end of stream. -/
def Tokenizer.peekChar (t : Tokenizer) : Option Char × Tokenizer :=
  match t.chars with
  | [] => (none, t)
  | c :: cs => (some c, ⟨t.lookaheads ++ [c], cs, t.slice⟩)

/-- Method Tokenizer::next_char: front of the lookahead deque if nonempty,
otherwise peek_char. -/
def Tokenizer.nextChar (t : Tokenizer) : Option Char × Tokenizer :=
  match t.lookaheads with
  | c :: _ => (some c, t)
  | [] => t.peekChar

/-- Method Tokenizer::consume_char: pop the front lookahead into the slice,
or failing that take one character from the stream into the slice. -/
def Tokenizer.consumeChar (t : Tokenizer) : Tokenizer :=
  match t.lookaheads with
  | c :: rest => ⟨rest, t.chars, t.slice.push c⟩
  | [] =>
    match t.chars with
    | c :: cs => ⟨[], cs, t.slice.push c⟩
    | [] => t

/-- Method Tokenizer::consume_next_char: next_char then consume_char,
returning the character read. -/
def Tokenizer.consumeNextChar (t : Tokenizer) : Option Char × Tokenizer :=
  let (c, t') := t.nextChar
  (c, t'.consumeChar)

/-- Method Tokenizer::consume_char_and_peek: consume_char then peek_char. -/
def Tokenizer.consumeCharAndPeek (t : Tokenizer) : Option Char × Tokenizer :=
  t.consumeChar.peekChar

/-- Whitespace-skipping loop at the head of get_next_token
(`while let Some(c) = ch { if !c.is_whitespace() break; ch = consume_char_and_peek }`).
Fuel-structural; the wrapper passes `remaining + 1`, which bounds the
iteration count, so the fuel-exhaustion row is unreachable. -/
def skipWsAux : Nat → Option Char → Tokenizer → Option Char × Tokenizer
  | _, none, t => (none, t)
  | 0, some c, t => (some c, t)
  | n + 1, some c, t =>
    if isWhitespaceCh c then
      let (c', t') := t.consumeCharAndPeek
      skipWsAux n c' t'
    else (some c, t)

/-- Identifier scanning loop body of Tokenizer::consume_identifier.  Both
branches consume: a non-identifier character triggers `consume_char; break`
(consuming the pending front character), an identifier character triggers
`consume_char` and another peek.  When the peek hits end of input the loop
exits without consuming, which is the source's behavior. -/
def identLoopAux : Nat → Option Char → Tokenizer → Tokenizer
  | _, none, t => t
  | 0, some _, t => t
  | n + 1, some c, t =>
    if !isAlphanumericCh c && c ≠ '_' then
      t.consumeChar
    else
      let t' := t.consumeChar
      let (c', t'') := t'.peekChar
      identLoopAux n c' t''

/-- Keyword table at the end of Tokenizer::consume_identifier. -/
def keywordOf (s : String) : Token :=
  if s = "const" then .constKeyword
  else if s = "import" then .importKeyword
  else if s = "let" then .letKeyword
  else if s = "var" then .varKeyword
  else .identifierName

/-- Method Tokenizer::consume_identifier. -/
def Tokenizer.consumeIdentifier (t : Tokenizer) : TokenResult × Tokenizer :=
  let (c, t') := t.peekChar
  let t'' := identLoopAux (t'.remaining + 1) c t'
  (.tok (keywordOf t''.slice), t'')

/-- Numeric scanning loop body of Tokenizer::consume_numeric_literal; same
shape as the identifier loop with the digit predicate. -/
def numLoopAux : Nat → Option Char → Tokenizer → Tokenizer
  | _, none, t => t
  | 0, some _, t => t
  | n + 1, some c, t =>
    if !isNumericCh c && c ≠ '_' then
      t.consumeChar
    else
      let t' := t.consumeChar
      let (c', t'') := t'.peekChar
      numLoopAux n c' t''

/-- Method Tokenizer::consume_numeric_literal. -/
def Tokenizer.consumeNumericLiteral (t : Tokenizer) : TokenResult × Tokenizer :=
  let (c, t') := t.peekChar
  let t'' := numLoopAux (t'.remaining + 1) c t'
  (.tok .numericLiteral, t'')

/-- String-literal scanning loop of
Tokenizer::consume_double_quote_string_literal /
consume_single_quote_string_literal, parameterized by the closing quote.
Each iteration runs consume_next_char; a successful read strictly decreases
`remaining`, so fuel `remaining + 1` suffices. -/
def stringLoopAux (quote : Char) : Nat → Option Char → Tokenizer → TokenResult × Tokenizer
  | 0, _, t => (.tok .stringLiteral, t)
  | n + 1, prev, t =>
    match t.consumeNextChar with
    | (none, t') => (.tok .stringLiteral, t')
    | (some c, t') =>
      if prev ≠ some backslashChar && c = quote then (.tok .stringLiteral, t')
      else stringLoopAux quote n (some c) t'

/-- Method Tokenizer::consume_double_quote_string_literal. -/
def Tokenizer.consumeDoubleQuoteStringLiteral (t : Tokenizer) : TokenResult × Tokenizer :=
  let (prev, t') := t.consumeNextChar
  stringLoopAux doubleQuoteChar (t'.remaining + 1) prev t'

/-- Method Tokenizer::consume_single_quote_string_literal. -/
def Tokenizer.consumeSingleQuoteStringLiteral (t : Tokenizer) : TokenResult × Tokenizer :=
  let (prev, t') := t.consumeNextChar
  stringLoopAux singleQuoteChar (t'.remaining + 1) prev t'

/-- Comment scanning loop of Tokenizer::consume_single_line_comment: scan to
a newline (left unconsumed) or end of input. -/
def commentLoopAux : Nat → Option Char → Tokenizer → TokenResult × Tokenizer
  | _, none, t => (.tok .singleLineComment, t)
  | 0, some _, t => (.tok .singleLineComment, t)
  | n + 1, some c, t =>
    if c = '\n' then (.tok .singleLineComment, t)
    else
      let t' := t.consumeChar
      let (c', t'') := t'.peekChar
      commentLoopAux n c' t''

/-- Method Tokenizer::consume_single_line_comment. -/
def Tokenizer.consumeSingleLineComment (t : Tokenizer) : TokenResult × Tokenizer :=
  let (c, t') := t.peekChar
  commentLoopAux (t'.remaining + 1) c t'

/-- Method Tokenizer::consume_char_as: consume one character and return the
given token. -/
def Tokenizer.consumeCharAs (t : Tokenizer) (tok : Token) : TokenResult × Tokenizer :=
  (.tok tok, t.consumeChar)

/-- Method Tokenizer::get_next_token: skip whitespace, clear the slice, then
dispatch on the first significant character.  The Rust catch-all arm
(`todo!` on an unrecognized character) is `fatal`.  Arms appear in the
source order of the Rust `match`. -/
def Tokenizer.getNextToken (t : Tokenizer) : TokenResult × Tokenizer :=
  let s0 := t.nextChar
  let s1 := skipWsAux (s0.2.remaining + 1) s0.1 s0.2
  let t2 : Tokenizer := ⟨s1.2.lookaheads, s1.2.chars, ""⟩
  match s1.1 with
  | none => (.eof, t2)
  | some ch =>
    if isAlphabeticCh ch then t2.consumeIdentifier
    else if isNumericCh ch then t2.consumeNumericLiteral
    else if ch = '!' then
      match t2.consumeCharAndPeek with
      | (some '=', t3) =>
        (match t3.consumeCharAndPeek with
         | (some '=', t4) => t4.consumeCharAs .strictInequality
         | (_, t4) => (.tok .inequality, t4))
      | (_, t3) => (.tok .exclamationMark, t3)
    else if ch = doubleQuoteChar then t2.consumeDoubleQuoteStringLiteral
    else if ch = '%' then
      match t2.consumeCharAndPeek with
      | (some '=', t3) => t3.consumeCharAs .remainderAssignment
      | (_, t3) => (.tok .percent, t3)
    else if ch = '&' then
      match t2.consumeCharAndPeek with
      | (some '&', t3) =>
        (match t3.consumeCharAndPeek with
         | (some '=', t4) => t4.consumeCharAs .logicalAndAssignment
         | (_, t4) => (.tok .logicalAnd, t4))
      | (some '=', t3) => t3.consumeCharAs .bitwiseAndAssignment
      | (_, t3) => (.tok .ampersand, t3)
    else if ch = singleQuoteChar then t2.consumeSingleQuoteStringLiteral
    else if ch = '(' then t2.consumeCharAs .leftParenthesis
    else if ch = ')' then t2.consumeCharAs .rightParenthesis
    else if ch = '*' then
      match t2.consumeCharAndPeek with
      | (some '*', t3) =>
        (match t3.consumeCharAndPeek with
         | (some '=', t4) => t4.consumeCharAs .exponentationAssignment
         | (_, t4) => (.tok .exponentation, t4))
      | (some '=', t3) => t3.consumeCharAs .multiplicationAssignment
      | (_, t3) => (.tok .asterisk, t3)
    else if ch = '+' then
      match t2.consumeCharAndPeek with
      | (some '+', t3) => t3.consumeCharAs .increment
      | (some '=', t3) => t3.consumeCharAs .additionAssignment
      | (_, t3) => (.tok .plus, t3)
    else if ch = ',' then t2.consumeCharAs .comma
    else if ch = '-' then
      match t2.consumeCharAndPeek with
      | (some '-', t3) => t3.consumeCharAs .decrement
      | (some '=', t3) => t3.consumeCharAs .subtractionAssignment
      | (_, t3) => (.tok .minus, t3)
    else if ch = '.' then
      -- Rust: `if self.peek_char() == Some('.') && self.peek_char() == Some('.')`;
      -- the two peeks read two successive fresh characters (short-circuited).
      let p1 := t2.peekChar
      if p1.1 = some '.' then
        let p2 := p1.2.peekChar
        if p2.1 = some '.' then
          p2.2.consumeChar.consumeChar.consumeCharAs .spread
        else p2.2.consumeCharAs .dot
      else p1.2.consumeCharAs .dot
    else if ch = '/' then
      match t2.consumeCharAndPeek with
      | (some '/', t3) => t3.consumeChar.consumeSingleLineComment
      | (some '=', t3) => t3.consumeCharAs .divisonAssignment
      | (_, t3) => (.tok .slash, t3)
    else if ch = ':' then t2.consumeCharAs .colon
    else if ch = ';' then t2.consumeCharAs .semicolon
    else if ch = '<' then
      -- Rust uses an if / else-if chain for this arm.
      let s2 := t2.consumeCharAndPeek
      if s2.1 = some '<' then
        let s3 := s2.2.consumeCharAndPeek
        if s3.1 = some '=' then s3.2.consumeCharAs .leftShiftAssignment
        else (.tok .leftShift, s3.2)
      else if s2.1 = some '=' then s2.2.consumeCharAs .lessThanOrEqual
      else (.tok .leftAngleBracket, s2.2)
    else if ch = '=' then
      match t2.consumeCharAndPeek with
      | (some '=', t3) =>
        (match t3.consumeCharAndPeek with
         | (some '=', t4) => t4.consumeCharAs .strictEquality
         | (_, t4) => (.tok .equality, t4))
      | (some '>', t3) => t3.consumeCharAs .arrow
      | (_, t3) => (.tok .assignment, t3)
    else if ch = '>' then
      -- Rust uses an if / else-if chain for this arm; the final else is
      -- the (defective) right-square-bracket fallthrough.
      let s2 := t2.consumeCharAndPeek
      if s2.1 = some '=' then s2.2.consumeCharAs .greaterThanOrEqual
      else if s2.1 = some '>' then
        let s3 := s2.2.consumeCharAndPeek
        if s3.1 = some '=' then s3.2.consumeCharAs .rightShiftAssignment
        else if s3.1 = some '>' then
          let s4 := s3.2.consumeCharAndPeek
          if s4.1 = some '=' then s4.2.consumeCharAs .unsignedRightShiftAssignment
          else (.tok .unsignedRightShift, s4.2)
        else (.tok .rightShift, s3.2)
      else (.tok .rightSquareBracket, s2.2)
    else if ch = rightBraceChar then t2.consumeCharAs .rightBrace
    else if ch = '?' then
      match t2.consumeCharAndPeek with
      | (some '?', t3) =>
        (match t3.consumeCharAndPeek with
         | (some '=', t4) => t4.consumeCharAs .logicalNullishAssignment
         | (_, t4) => (.tok .nullishCoalescingOperator, t4))
      | (some '.', t3) => t3.consumeCharAs .optionalChaining
      | (_, t3) => (.tok .questionMark, t3)
    else if ch = '[' then t2.consumeCharAs .leftSquareBracket
    else if ch = ']' then t2.consumeCharAs .rightSquareBracket
    else if ch = '^' then
      match t2.consumeCharAndPeek with
      | (some '=', t3) => t3.consumeCharAs .bitwiseXorAssignment
      | (_, t3) => (.tok .caret, t3)
    else if ch = leftBraceChar then t2.consumeCharAs .leftBrace
    else if ch = '|' then
      match t2.consumeCharAndPeek with
      | (some '|', t3) =>
        (match t3.consumeCharAndPeek with
         | (some '=', t4) => t4.consumeCharAs .logicalOrAssignment
         | (_, t4) => (.tok .logicalOr, t4))
      | (some '=', t3) => t3.consumeCharAs .bitwiseOrAssignment
      | (_, t3) => (.tok .pipe, t3)
    else if ch = '~' then t2.consumeCharAs .tilde
    else (.fatal, t2)

/-- Public method Tokenizer::next_token, a direct wrapper of
get_next_token. -/
def Tokenizer.nextToken (t : Tokenizer) : TokenResult × Tokenizer :=
  t.getNextToken

/-- Binary operator enumeration from src/parser/ast.rs (enum BinaryOp). -/
inductive BinaryOp where
  | addition | bitwiseAnd | bitwiseOr | bitwiseXor | division | equality
  | exponentiation | greaterThan | greaterThanOrEqual | inequality
  | leftShift | lessThan | lessThanOrEqual | logicalAnd | logicalOr
  | multiplication | remainder | rightSift | strictEquality
  | strictInequality | subtraction | unsignedRightShift
  deriving DecidableEq, Repr

/-- Expression tree from src/parser/ast.rs: the only variant is
BinaryExpression, holding left, operator and right. -/
inductive Expression where
  | binaryExpression : Expression → BinaryOp → Expression → Expression
  deriving DecidableEq, Repr

/-- Identifier node (struct Identifier). -/
structure Identifier where
  value : String
  deriving DecidableEq, Repr

/-- Module specifier node (struct ModuleSpecifier). -/
structure ModuleSpecifier where
  value : String
  deriving DecidableEq, Repr

/-- Import clause (enum ImportClause); the only variant is NamedImports
over an ordered list of identifier texts. -/
inductive ImportClause where
  | namedImports : List String → ImportClause
  deriving DecidableEq, Repr

/-- Import declaration node (struct ImportDeclaration). -/
structure ImportDeclaration where
  importClause : Option ImportClause
  moduleSpecifier : ModuleSpecifier
  deriving DecidableEq, Repr

/-- Variable statement node (struct VariableStatement). -/
structure VariableStatement where
  bindingIdentifier : Identifier
  initializer : Option Expression
  deriving DecidableEq, Repr

/-- Statement (enum Statement).  The blockStatement variant carries the
statement list of the nested BlockStatement struct directly. -/
inductive Statement where
  | blockStatement : List Statement → Statement
  | breakStatement
  | comment
  | continueStatement
  | expressiontatement
  | forStatement
  | functionDeclaration
  | ifStatement
  | importDeclaration : ImportDeclaration → Statement
  | variableStatement : VariableStatement → Statement

/-- Block statement node (struct BlockStatement). -/
structure BlockStatement where
  stmts : List Statement

/-- Script root node (struct Script). -/
structure Script where
  body : BlockStatement

/-- Result of a parser operation.  Rust returns
`Result<A, ParseError>`; `panic` models a `todo!` / tokenizer panic
reaching the call, and `nofuel` marks exhaustion of the artificial fuel
bound on the parsing loops (never a real outcome of the Rust code). -/
inductive PRes (α : Type) where
  | ok : α → PRes α
  | err : String → PRes α
  | panic
  | nofuel
  deriving DecidableEq, Repr

/-- Parser state from src/parser/parser.rs: the comment-preservation flag,
the owned tokenizer, and the single-slot cached lookahead token. -/
structure Parser where
  preserveComments : Bool
  tokenizer : Tokenizer
  lookahead : Option Token
  deriving DecidableEq, Repr

/-- Constructor Parser::new: comment preservation disabled, empty
lookahead slot. -/
def Parser.new (t : Tokenizer) : Parser :=
  ⟨false, t, none⟩

/-- Convenience: a parser over the given source text, exactly as the driver
builds it (Parser::new over Tokenizer::new over the character stream). -/
def mkParser (s : String) : Parser :=
  Parser.new (Tokenizer.new s.toList)

/-- Method Parser::next_token (parser level): return and clear the cached
lookahead if present, otherwise pull a fresh token from the tokenizer. -/
def Parser.nextToken (p : Parser) : TokenResult × Parser :=
  match p.lookahead with
  | some t => (.tok t, ⟨p.preserveComments, p.tokenizer, none⟩)
  | none =>
    let r := p.tokenizer.nextToken
    (r.1, ⟨p.preserveComments, r.2, none⟩)

/-- Method Parser::peek_token: return the cached lookahead if present;
otherwise pull a token from the tokenizer and store it in the slot
(`lookahead.replace(token.clone())` stores `none` again when the tokenizer
returned end-of-stream). -/
def Parser.peekToken (p : Parser) : TokenResult × Parser :=
  match p.lookahead with
  | some t => (.tok t, p)
  | none =>
    match p.tokenizer.nextToken with
    | (.tok t, tk) => (.tok t, ⟨p.preserveComments, tk, some t⟩)
    | (.eof, tk) => (.eof, ⟨p.preserveComments, tk, none⟩)
    | (.fatal, tk) => (.fatal, ⟨p.preserveComments, tk, none⟩)

/-- Debug rendering of a token, as Rust's `{:?}` prints the Token enum. -/
def tokenDebug : Token → String
  | .additionAssignment => "AdditionAssignment"
  | .ampersand => "Ampersand"
  | .arrow => "Arrow"
  | .assignment => "Assignment"
  | .asterisk => "Asterisk"
  | .bitwiseAndAssignment => "BitwiseAndAssignment"
  | .bitwiseOrAssignment => "BitwiseOrAssignment"
  | .bitwiseXorAssignment => "BitwiseXorAssignment"
  | .caret => "Caret"
  | .colon => "Colon"
  | .comma => "Comma"
  | .constKeyword => "ConstKeyword"
  | .decrement => "Decrement"
  | .divisonAssignment => "DivisonAssignment"
  | .dot => "Dot"
  | .equality => "Equality"
  | .exclamationMark => "ExclamationMark"
  | .exponentation => "Exponentation"
  | .exponentationAssignment => "ExponentationAssignment"
  | .greaterThanOrEqual => "GreaterThanOrEqual"
  | .identifierName => "IdentifierName"
  | .importKeyword => "ImportKeyword"
  | .increment => "Increment"
  | .inequality => "Inequality"
  | .leftAngleBracket => "LeftAngleBracket"
  | .leftBrace => "LeftBrace"
  | .leftParenthesis => "LeftParenthesis"
  | .leftShift => "LeftShift"
  | .leftShiftAssignment => "LeftShiftAssignment"
  | .leftSquareBracket => "LeftSquareBracket"
  | .lessThanOrEqual => "LessThanOrEqual"
  | .letKeyword => "LetKeyword"
  | .logicalAnd => "LogicalAnd"
  | .logicalAndAssignment => "LogicalAndAssignment"
  | .logicalNullishAssignment => "LogicalNullishAssignment"
  | .logicalOr => "LogicalOr"
  | .logicalOrAssignment => "LogicalOrAssignment"
  | .minus => "Minus"
  | .multiLineComment => "MultiLineComment"
  | .multiplicationAssignment => "MultiplicationAssignment"
  | .nullishCoalescingOperator => "NullishCoalescingOperator"
  | .numericLiteral => "NumericLiteral"
  | .optionalChaining => "OptionalChaining"
  | .percent => "Percent"
  | .pipe => "Pipe"
  | .plus => "Plus"
  | .questionMark => "QuestionMark"
  | .remainderAssignment => "RemainderAssignment"
  | .rightAngleBracket => "RightAngleBracket"
  | .rightBrace => "RightBrace"
  | .rightParenthesis => "RightParenthesis"
  | .rightShift => "RightShift"
  | .rightShiftAssignment => "RightShiftAssignment"
  | .rightSquareBracket => "RightSquareBracket"
  | .semicolon => "Semicolon"
  | .singleLineComment => "SingleLineComment"
  | .slash => "Slash"
  | .spread => "Spread"
  | .strictEquality => "StrictEquality"
  | .strictInequality => "StrictInequality"
  | .stringLiteral => "StringLiteral"
  | .subtractionAssignment => "SubtractionAssignment"
  | .templateLiteral => "TemplateLiteral"
  | .tilde => "Tilde"
  | .unsignedRightShift => "UnsignedRightShift"
  | .unsignedRightShiftAssignment => "UnsignedRightShiftAssignment"
  | .varKeyword => "VarKeyword"

/-- Debug rendering of an `Option<Token>`, as Rust's `{:?}` prints it. -/
def optionTokenDebug : Option Token → String
  | none => "None"
  | some t => "Some(" ++ tokenDebug t ++ ")"

/-- Method Parser::expect_token: pull one token; succeed exactly when it
equals the expected one, otherwise report the mismatch. -/
def Parser.expectToken (p : Parser) (expected : Token) : PRes Unit × Parser :=
  match p.nextToken with
  | (.tok actual, p') =>
    if actual = expected then (.ok (), p')
    else (.err ("Expected token `" ++ tokenDebug expected ++ "`, but was `"
                ++ optionTokenDebug (some actual) ++ "`"), p')
  | (.eof, p') =>
    (.err ("Expected token `" ++ tokenDebug expected ++ "`, but was `"
           ++ optionTokenDebug none ++ "`"), p')
  | (.fatal, p') => (.panic, p')

/-- Method Parser::parse_assignment_expression: the body is `todo!()`, an
unconditional panic. -/
def Parser.parseAssignmentExpression (p : Parser) : PRes (Option Expression) × Parser :=
  (.panic, p)

/-- Method Parser::parse_initializer: on a peeked `=` token, consume it and
parse an assignment expression; otherwise no initializer. -/
def Parser.parseInitializer (p : Parser) : PRes (Option Expression) × Parser :=
  match p.peekToken with
  | (.tok .assignment, p') =>
    let n := p'.nextToken
    n.2.parseAssignmentExpression
  | (.tok _, p') => (.ok none, p')
  | (.eof, p') => (.ok none, p')
  | (.fatal, p') => (.panic, p')

/-- Method Parser::parser_binding_identifier: on a peeked IdentifierName,
consume it and wrap the tokenizer slice as an Identifier; on any other
peek outcome, no binding identifier. -/
def Parser.parserBindingIdentifier (p : Parser) : PRes (Option Identifier) × Parser :=
  match p.peekToken with
  | (.tok .identifierName, p') =>
    let n := p'.nextToken
    (.ok (some ⟨n.2.tokenizer.slice⟩), n.2)
  | (.tok _, p') => (.ok none, p')
  | (.eof, p') => (.ok none, p')
  | (.fatal, p') => (.panic, p')

/-- Method Parser::parse_variable_declaration: parse a binding identifier
and an optional initializer; when no binding identifier is found the source
hits `todo!("Unexpected token: ...", self.next_token())`, i.e. it pulls one
more token and panics. -/
def Parser.parseVariableDeclaration (p : Parser) : PRes (Option Statement) × Parser :=
  match p.parserBindingIdentifier with
  | (.ok (some bi), p') =>
    (match p'.parseInitializer with
     | (.ok init, p'') => (.ok (some (.variableStatement ⟨bi, init⟩)), p'')
     | (.err e, p'') => (.err e, p'')
     | (.panic, p'') => (.panic, p'')
     | (.nofuel, p'') => (.nofuel, p''))
  | (.ok none, p') =>
    let n := p'.nextToken
    (.panic, n.2)
  | (.err e, p') => (.err e, p')
  | (.panic, p') => (.panic, p')
  | (.nofuel, p') => (.nofuel, p')

/-- Method Parser::parse_module_specifier: on a peeked StringLiteral,
expect it (consuming the cached token) and wrap the tokenizer slice as the
ModuleSpecifier value; otherwise no module specifier. -/
def Parser.parseModuleSpecifier (p : Parser) : PRes (Option ModuleSpecifier) × Parser :=
  match p.peekToken with
  | (.tok .stringLiteral, p') =>
    (match p'.expectToken .stringLiteral with
     | (.ok (), p'') => (.ok (some ⟨p''.tokenizer.slice⟩), p'')
     | (.err e, p'') => (.err e, p'')
     | (.panic, p'') => (.panic, p'')
     | (.nofuel, p'') => (.nofuel, p''))
  | (.tok _, p') => (.ok none, p')
  | (.eof, p') => (.ok none, p')
  | (.fatal, p') => (.panic, p')

/-- Method Parser::parse_from_clause: pull one token; if the stream is
exhausted, or the tokenizer's current slice is not the text `from`, report
"`from` expected"; otherwise parse the module specifier.  The check is on
the slice text, not on a token kind. -/
def Parser.parseFromClause (p : Parser) : PRes (Option ModuleSpecifier) × Parser :=
  match p.nextToken with
  | (.tok _, p') =>
    if p'.tokenizer.slice ≠ "from" then (.err "`from` expected", p')
    else p'.parseModuleSpecifier
  | (.eof, p') => (.err "`from` expected", p')
  | (.fatal, p') => (.panic, p')

/-- Loop of Parser::parse_named_imports: pull tokens, collecting
IdentifierName slices, skipping commas, stopping at a right brace; any
other outcome is "Identifier expected".  Fuel-structural. -/
def Parser.parseNamedImportsLoop :
    Nat → Parser → List String → PRes (Option ImportClause) × Parser
  | 0, p, _ => (.nofuel, p)
  | fuel + 1, p, acc =>
    match p.nextToken with
    | (.tok .identifierName, p') =>
      Parser.parseNamedImportsLoop fuel p' (acc ++ [p'.tokenizer.slice])
    | (.tok .comma, p') => Parser.parseNamedImportsLoop fuel p' acc
    | (.tok .rightBrace, p') => (.ok (some (.namedImports acc)), p')
    | (.tok _, p') => (.err "Identifier expected", p')
    | (.eof, p') => (.err "Identifier expected", p')
    | (.fatal, p') => (.panic, p')

/-- Method Parser::parse_named_imports: expect a left brace, then run the
specifier-collecting loop. -/
def Parser.parseNamedImports (fuel : Nat) (p : Parser) : PRes (Option ImportClause) × Parser :=
  match p.expectToken .leftBrace with
  | (.ok (), p') => Parser.parseNamedImportsLoop fuel p' []
  | (.err e, p') => (.err e, p')
  | (.panic, p') => (.panic, p')
  | (.nofuel, p') => (.nofuel, p')

/-- Method Parser::parse_import_clause: on a peeked left brace parse the
named imports, otherwise no clause. -/
def Parser.parseImportClause (fuel : Nat) (p : Parser) : PRes (Option ImportClause) × Parser :=
  match p.peekToken with
  | (.tok .leftBrace, p') => p'.parseNamedImports fuel
  | (.tok _, p') => (.ok none, p')
  | (.eof, p') => (.ok none, p')
  | (.fatal, p') => (.panic, p')

/-- Method Parser::parse_import_declaration: an import clause followed by a
mandatory from clause, or a bare module specifier; otherwise a syntax
error. -/
def Parser.parseImportDeclaration (fuel : Nat) (p : Parser) : PRes (Option Statement) × Parser :=
  match p.parseImportClause fuel with
  | (.ok (some ic), p') =>
    (match p'.parseFromClause with
     | (.ok (some ms), p'') =>
       (.ok (some (.importDeclaration ⟨some ic, ms⟩)), p'')
     | (.ok none, p'') => (.err "Expression expected.", p'')
     | (.err e, p'') => (.err e, p'')
     | (.panic, p'') => (.panic, p'')
     | (.nofuel, p'') => (.nofuel, p''))
  | (.ok none, p') =>
    (match p'.parseModuleSpecifier with
     | (.ok (some ms), p'') =>
       (.ok (some (.importDeclaration ⟨none, ms⟩)), p'')
     | (.ok none, p'') => (.err "Declaration or statement expected.", p'')
     | (.err e, p'') => (.err e, p'')
     | (.panic, p'') => (.panic, p'')
     | (.nofuel, p'') => (.nofuel, p''))
  | (.err e, p') => (.err e, p')
  | (.panic, p') => (.panic, p')
  | (.nofuel, p') => (.nofuel, p')

/-- Method Parser::parse_comment: emit a Comment statement (only reachable
when comment preservation is on). -/
def Parser.parseComment (p : Parser) : PRes (Option Statement) × Parser :=
  (.ok (some .comment), p)

/-- Method Parser::parse_statement: pull tokens until one dispatches;
SingleLineComment is dropped (looping on) when preservation is off; an
`import`, const, let, or var keyword dispatches to its parser; others are
the "Unexpected token" syntax error citing the tokenizer slice; end of
stream yields no statement.  Fuel-structural on the comment-skipping
loop. -/
def Parser.parseStatement : Nat → Parser → PRes (Option Statement) × Parser
  | 0, p => (.nofuel, p)
  | fuel + 1, p =>
    match p.nextToken with
    | (.tok .singleLineComment, p') =>
      if p'.preserveComments then p'.parseComment
      else Parser.parseStatement fuel p'
    | (.tok .importKeyword, p') => p'.parseImportDeclaration fuel
    | (.tok .constKeyword, p') => p'.parseVariableDeclaration
    | (.tok .letKeyword, p') => p'.parseVariableDeclaration
    | (.tok .varKeyword, p') => p'.parseVariableDeclaration
    | (.tok _, p') => (.err ("Unexpected token: " ++ p'.tokenizer.slice), p')
    | (.eof, p') => (.ok none, p')
    | (.fatal, p') => (.panic, p')

/-- Statement-collecting loop of Parser::parse_script. -/
def Parser.parseScriptLoop : Nat → Parser → List Statement → PRes Script × Parser
  | 0, p, _ => (.nofuel, p)
  | fuel + 1, p, acc =>
    match Parser.parseStatement (fuel + 1) p with
    | (.ok (some stmt), p') => Parser.parseScriptLoop fuel p' (acc ++ [stmt])
    | (.ok none, p') => (.ok ⟨⟨acc⟩⟩, p')
    | (.err e, p') => (.err e, p')
    | (.panic, p') => (.panic, p')
    | (.nofuel, p') => (.nofuel, p')

/-- Method Parser::parse_script: collect statements until the token stream
is exhausted, wrapping them into a Script. -/
def Parser.parseScript (fuel : Nat) (p : Parser) : PRes Script × Parser :=
  Parser.parseScriptLoop fuel p []

/-- Tokenizer state reached after n calls to next_token. -/
def Tokenizer.iterate (t : Tokenizer) : Nat → Tokenizer
  | 0 => t
  | n + 1 => (t.iterate n).nextToken.2

/-- Slices of the first n tokens produced from a tokenizer state (stopping
early at end-of-stream or a lexical panic). -/
def Tokenizer.tokenSlices : Nat → Tokenizer → List String
  | 0, _ => []
  | n + 1, t =>
    match t.nextToken with
    | (.tok _, t') => t'.slice :: Tokenizer.tokenSlices n t'
    | _ => []

/-- Claim C1: the spec says parsing the exact input `let x` returns a
successful Script with one VariableStatement binding `x` and no
initializer.  The code disagrees: at end of input, consume_identifier
leaves its last pending character unconsumed (the loop exits when peek_char
returns nothing, before the break-and-consume branch runs), so after
`let ` the tokenizer returns an IdentifierName token whose slice is empty
and never consumes `x`; the parser builds a VariableStatement with an
empty binding identifier, then fails on the next spurious IdentifierName
with the error "Unexpected token: ".  The second conjunct shows the intent
is achievable: with a trailing newline the exact claimed tree is produced,
so the end-of-input handling is a code bug. -/
theorem C1_let_x_exact_input_fails :
    ((mkParser "let x").parseScript 16).1 = PRes.err "Unexpected token: "
    ∧ ((mkParser "let x\n").parseScript 16).1
        = PRes.ok ⟨⟨[Statement.variableStatement ⟨⟨"x"⟩, none⟩]⟩⟩ :=
  ⟨rfl, rfl⟩

/-- Claim C2: the spec says tokenizing the exact input "const" yields one
ConstKeyword and then end-of-stream, and "constant" one IdentifierName and
then end-of-stream.  The code disagrees: for "const" the end-of-input slip
in consume_identifier stops the scan after "cons" (IdentifierName, not
ConstKeyword) leaving 't' queued, and the following call produces another
IdentifierName instead of end-of-stream; "constant" likewise stops at
"constan" and never reaches end-of-stream.  With a trailing space the
keyword is recognized (third conjunct), showing intent. -/
theorem C2_keyword_boundary_fails :
    (Tokenizer.new "const".toList).nextToken
      = (TokenResult.tok Token.identifierName, ⟨['t'], [], "cons"⟩)
    ∧ (Tokenizer.new "const".toList).nextToken.2.nextToken.1
      = TokenResult.tok Token.identifierName
    ∧ (Tokenizer.new "constant".toList).nextToken
      = (TokenResult.tok Token.identifierName, ⟨['t'], [], "constan"⟩)
    ∧ (Tokenizer.new "const ".toList).nextToken.1
      = TokenResult.tok Token.constKeyword :=
  ⟨rfl, rfl, rfl, rfl⟩

/-- Claim C3: the spec says every finite character source reaches
end-of-input after finitely many next_token calls.  The code disagrees:
on the one-character input "a", consume_identifier returns an empty-slice
IdentifierName without consuming the queued 'a', reaching the fixed state
(lookaheads = ['a'], stream empty) from which every further call returns
another IdentifierName; next_token never returns end-of-stream. -/
theorem C3_token_stream_never_ends :
    ∀ n : Nat,
      ((Tokenizer.new "a".toList).iterate n).nextToken.1 ≠ TokenResult.eof := by
  have hfix : ∀ m : Nat,
      (Tokenizer.new "a".toList).iterate (m + 1) = ⟨['a'], [], ""⟩ := by
    intro m
    induction m with
    | zero => rfl
    | succ m ih =>
      show ((Tokenizer.new "a".toList).iterate (m + 1)).nextToken.2 = _
      rw [ih]
      rfl
  intro n
  match n with
  | 0 => intro h; exact absurd h (by decide)
  | m + 1 => rw [hfix m]; intro h; exact absurd h (by decide)

/-- Claim C4: parsing `import { a, b } from "m"` yields a Script with one
ImportDeclaration carrying NamedImports ["a", "b"] in source order and the
module specifier text of the three characters quote-m-quote.  Confirmed by
evaluation of the embedded parser. -/
theorem C4_named_import_parse :
    ((mkParser "import \x7b a, b \x7d from \"m\"").parseScript 32).1
      = PRes.ok ⟨⟨[Statement.importDeclaration
          ⟨some (ImportClause.namedImports ["a", "b"]), ⟨"\"m\""⟩⟩]⟩⟩ :=
  rfl

/-- Concatenation of a list of strings, head first. -/
def concatStrings : List String → String
  | [] => ""
  | s :: rest => s ++ concatStrings rest

/-- Claim C8: the spec says concatenating the slices of all produced tokens
reconstructs the input minus whitespace.  The code disagrees: on the
whitespace-free input "ab" the first token's slice is "a" (the final 'b' is
read into the lookahead queue but never committed by the end-of-input slip
in consume_identifier) and every further token has an empty slice, so no
number of tokens concatenates to "ab". -/
theorem C8_slice_roundtrip_fails :
    ∀ n : Nat,
      concatStrings (Tokenizer.tokenSlices n (Tokenizer.new "ab".toList)) ≠ "ab" := by
  have hstuck : ∀ (m : Nat) (s : String),
      concatStrings (Tokenizer.tokenSlices m (⟨['b'], [], s⟩ : Tokenizer)) = "" := by
    intro m
    induction m with
    | zero => intro s; rfl
    | succ m ih =>
      intro s
      show ("" : String)
          ++ concatStrings (Tokenizer.tokenSlices m (⟨['b'], [], ""⟩ : Tokenizer)) = ""
      rw [ih ""]
      rfl
  intro n
  match n with
  | 0 => decide
  | m + 1 =>
    show ("a" : String)
        ++ concatStrings (Tokenizer.tokenSlices m (⟨['b'], [], "a"⟩ : Tokenizer)) ≠ "ab"
    rw [hstuck m "a"]
    decide

/-- Claim C5, counterexample: parsing `const 1` does not return a
structured syntax error; parse_variable_declaration falls into its
`todo!("Unexpected token: ...")` branch, which terminates execution (a
panic), modeled by the distinguished `panic` result. -/
theorem C5_const_nonidentifier_counterexample :
    ((mkParser "const 1").parseScript 16).1 = PRes.panic := rfl

/-- Claim C5, amended: whenever a const / let / var keyword token is
followed by a token that is not an identifier (or by end of stream, or by
a lexical panic), statement parsing reaches the `todo!` branch of
parse_variable_declaration (or propagates the tokenizer panic) and
terminates execution with a panic instead of returning a ParseError. -/
theorem C5_decl_keyword_without_identifier_panics
    (fuel : Nat) (p p₁ : Parser) (t : Token)
    (h : p.nextToken = (TokenResult.tok t, p₁))
    (hk : t = Token.constKeyword ∨ t = Token.letKeyword ∨ t = Token.varKeyword)
    (hni : (p₁.peekToken).1 ≠ TokenResult.tok Token.identifierName) :
    (Parser.parseStatement (fuel + 1) p).1 = PRes.panic := by
  have hvd : (p₁.parseVariableDeclaration).1 = PRes.panic := by
    unfold Parser.parseVariableDeclaration Parser.parserBindingIdentifier
    rcases hpk : p₁.peekToken with ⟨r, p₂⟩
    rw [hpk] at hni
    cases r with
    | tok t' => cases t' <;> simp_all
    | eof => simp
    | fatal => simp
  simp only [Parser.parseStatement]
  rw [h]
  rcases hk with rfl | rfl | rfl <;> exact hvd

/-- Claim C5, witness for the amended theorem at the concrete input
`const 1` (the keyword is followed by a numeric literal). -/
theorem C5_witness :
    (Parser.parseStatement 1 (mkParser "const 1")).1 = PRes.panic :=
  C5_decl_keyword_without_identifier_panics 0 (mkParser "const 1")
    ((mkParser "const 1").nextToken.2) Token.constKeyword rfl (Or.inl rfl)
    (by decide)

/-- Claim C6: after a named-imports clause, parse_from_clause pulls one
more token and accepts it as introducing the module specifier exactly when
the tokenizer's current slice is the text `from` (a check on the slice
text, not on a token kind); otherwise, and also when the stream is
exhausted, it returns the error "`from` expected". -/
theorem C6_from_checked_by_slice_text (p : Parser) :
    (∀ t p₁, p.nextToken = (TokenResult.tok t, p₁) →
       p.parseFromClause
         = if p₁.tokenizer.slice = "from" then p₁.parseModuleSpecifier
           else (PRes.err "`from` expected", p₁))
  ∧ (∀ p₁, p.nextToken = (TokenResult.eof, p₁) →
       p.parseFromClause = (PRes.err "`from` expected", p₁)) := by
  constructor
  · intro t p₁ h
    unfold Parser.parseFromClause
    rw [h]
    by_cases hs : p₁.tokenizer.slice = "from" <;> simp [hs]
  · intro p₁ h
    unfold Parser.parseFromClause
    rw [h]

/-- Claim C6, witness: on the concrete input `from "m"` the pulled token's
slice is `from`, so parse_from_clause proceeds to the module specifier. -/
theorem C6_witness :
    Parser.parseFromClause (mkParser "from \"m\"")
      = Parser.parseModuleSpecifier ((mkParser "from \"m\"").nextToken.2) := by
  have h := (C6_from_checked_by_slice_text (mkParser "from \"m\"")).1
      Token.identifierName ((mkParser "from \"m\"").nextToken.2) rfl
  rw [h]
  rw [if_pos]
  rfl

/-- Claim C9, counterexample: two consecutive peek_token calls with no
intervening next_token can return different results.  On the input
`.. x`, after two (parser-level) next_token calls the tokenizer holds
pending lookahead characters [' ', 'x'] with an exhausted stream; the next
tokenizer call consumes the blank, hits end of stream and reports
end-of-stream even though 'x' is still pending.  peek_token does not cache
an end-of-stream result, so the first peek returns end-of-stream and the
second peek pulls again and returns an IdentifierName token. -/
theorem C9_double_peek_counterexample :
    ((mkParser ".. x").nextToken.2.nextToken.2.peekToken).1 = TokenResult.eof
  ∧ ((mkParser ".. x").nextToken.2.nextToken.2.peekToken).2.peekToken.1
      = TokenResult.tok Token.identifierName :=
  ⟨rfl, rfl⟩

/-- Claim C9, amended: when peek_token returns an actual token t, the
token is cached: an immediately following next_token returns the same t,
and a second peek_token returns the same t while leaving the parser state
(hence the underlying tokenizer) completely unchanged.  The lookahead slot
holds at most one token by construction (it is a single Option field).
The unamended claim fails only when the first peek returns end-of-stream,
which is not cached. -/
theorem C9_peek_caches_token (p : Parser) (t : Token)
    (h : (p.peekToken).1 = TokenResult.tok t) :
    ((p.peekToken).2.nextToken).1 = TokenResult.tok t
  ∧ (p.peekToken).2.peekToken = (TokenResult.tok t, (p.peekToken).2) := by
  cases hl : p.lookahead with
  | some s =>
    have hps : p.peekToken = (TokenResult.tok s, p) := by
      unfold Parser.peekToken
      rw [hl]
    rw [hps] at h ⊢
    simp only at h
    cases h
    constructor
    · unfold Parser.nextToken
      rw [hl]
    · exact hps
  | none =>
    rcases htk : p.tokenizer.nextToken with ⟨r, tk⟩
    cases r with
    | tok u =>
      have hps : p.peekToken
          = (TokenResult.tok u, ⟨p.preserveComments, tk, some u⟩) := by
        unfold Parser.peekToken
        rw [hl, htk]
      rw [hps] at h ⊢
      simp only at h
      cases h
      constructor
      · rfl
      · rfl
    | eof =>
      have hps : p.peekToken = (TokenResult.eof, ⟨p.preserveComments, tk, none⟩) := by
        unfold Parser.peekToken
        rw [hl, htk]
      rw [hps] at h
      simp at h
    | fatal =>
      have hps : p.peekToken = (TokenResult.fatal, ⟨p.preserveComments, tk, none⟩) := by
        unfold Parser.peekToken
        rw [hl, htk]
      rw [hps] at h
      simp at h

/-- Claim C9, witness for the amended theorem: on the concrete input
`x ` the first peek returns an IdentifierName token, the following
next_token returns the same token, and a repeated peek returns the same
token without touching the state. -/
theorem C9_witness :
    (((mkParser "x ").peekToken).2.nextToken).1 = TokenResult.tok Token.identifierName
  ∧ ((mkParser "x ").peekToken).2.peekToken
      = (TokenResult.tok Token.identifierName, ((mkParser "x ").peekToken).2) :=
  C9_peek_caches_token (mkParser "x ") Token.identifierName rfl

/-- Claim C7: when get_next_token dispatches on `>` and the immediately
following character is neither `=` nor `>` (first conjunct), or the input
ends right after the `>` (second conjunct), the returned token is
RightSquareBracket — the flagged defect: a bare greater-than never yields a
greater-than-style token — and only the single `>` character is consumed:
the resulting slice is ">" and the following character is merely moved to
the lookahead deque, not committed. -/
theorem C7_bare_gt_yields_rightSquareBracket
    (c : Char) (cs : List Char) (s : String)
    (h1 : c ≠ '=') (h2 : c ≠ '>') :
    Tokenizer.nextToken ⟨[], '>' :: c :: cs, s⟩
      = (TokenResult.tok Token.rightSquareBracket, ⟨[c], cs, ">"⟩)
  ∧ Tokenizer.nextToken ⟨[], ['>'], s⟩
      = (TokenResult.tok Token.rightSquareBracket, ⟨[], [], ">"⟩) := by
  constructor
  · have e1 : (some c = some '=') = False := by simp [h1]
    have e2 : (some c = some '>') = False := by simp [h2]
    simp [Tokenizer.nextToken, Tokenizer.getNextToken, Tokenizer.nextChar,
          Tokenizer.peekChar, skipWsAux, isWhitespaceCh, isAlphabeticCh,
          isNumericCh, Tokenizer.consumeCharAndPeek, Tokenizer.consumeChar,
          Tokenizer.consumeCharAs, Tokenizer.remaining, doubleQuoteChar,
          singleQuoteChar, leftBraceChar, rightBraceChar, e1, e2]
    rfl
  · rfl

/-- Claim C7, witness: the concrete input `>a` (the character after `>` is
the letter a) produces RightSquareBracket with slice ">". -/
theorem C7_witness :
    Tokenizer.nextToken ⟨[], '>' :: 'a' :: [], ""⟩
      = (TokenResult.tok Token.rightSquareBracket, ⟨['a'], [], ">"⟩)
  ∧ Tokenizer.nextToken ⟨[], ['>'], ""⟩
      = (TokenResult.tok Token.rightSquareBracket, ⟨[], [], ">"⟩) :=
  C7_bare_gt_yields_rightSquareBracket 'a' [] "" (by decide) (by decide)

/-- Transfer helper: if a parser operation preserves the
comment-preservation flag, a hypothesis naming its result lets the flag be
carried to the result state. -/
theorem pcOf {A : Type} (f : Parser → A × Parser)
    (pres : ∀ q, (f q).2.preserveComments = q.preserveComments)
    {p q : Parser} {r : A} (h : f p = (r, q)) :
    q.preserveComments = p.preserveComments := by
  have h2 := congrArg (fun x => x.2.preserveComments) h
  simp only at h2
  rw [← h2]
  exact pres p

/-- Parser::next_token never changes the comment-preservation flag. -/
theorem pcNextToken (p : Parser) :
    (p.nextToken).2.preserveComments = p.preserveComments := by
  unfold Parser.nextToken
  split <;> rfl

/-- Parser::peek_token never changes the comment-preservation flag. -/
theorem pcPeekToken (p : Parser) :
    (p.peekToken).2.preserveComments = p.preserveComments := by
  unfold Parser.peekToken
  split
  · rfl
  · split <;> rfl

/-- Parser::expect_token never changes the comment-preservation flag. -/
theorem pcExpectToken (p : Parser) (tk : Token) :
    (p.expectToken tk).2.preserveComments = p.preserveComments := by
  unfold Parser.expectToken
  split
  next a p₁ heq =>
    split <;> exact pcOf Parser.nextToken pcNextToken heq
  next p₁ heq => exact pcOf Parser.nextToken pcNextToken heq
  next p₁ heq => exact pcOf Parser.nextToken pcNextToken heq

/-- Parser::parse_assignment_expression never changes the flag. -/
theorem pcParseAssignmentExpression (p : Parser) :
    (p.parseAssignmentExpression).2.preserveComments = p.preserveComments := rfl

/-- Parser::parse_initializer never changes the flag. -/
theorem pcParseInitializer (p : Parser) :
    (p.parseInitializer).2.preserveComments = p.preserveComments := by
  unfold Parser.parseInitializer
  split
  next p₁ heq =>
    rw [pcParseAssignmentExpression, pcNextToken]
    exact pcOf Parser.peekToken pcPeekToken heq
  next p₁ heq => exact pcOf Parser.peekToken pcPeekToken heq
  next p₁ heq => exact pcOf Parser.peekToken pcPeekToken heq
  next p₁ heq => exact pcOf Parser.peekToken pcPeekToken heq

/-- Parser::parser_binding_identifier never changes the flag. -/
theorem pcParserBindingIdentifier (p : Parser) :
    (p.parserBindingIdentifier).2.preserveComments = p.preserveComments := by
  unfold Parser.parserBindingIdentifier
  split
  next p₁ heq =>
    rw [pcNextToken]
    exact pcOf Parser.peekToken pcPeekToken heq
  next p₁ heq => exact pcOf Parser.peekToken pcPeekToken heq
  next p₁ heq => exact pcOf Parser.peekToken pcPeekToken heq
  next p₁ heq => exact pcOf Parser.peekToken pcPeekToken heq

/-- Parser::parse_variable_declaration never changes the flag. -/
theorem pcParseVariableDeclaration (p : Parser) :
    (p.parseVariableDeclaration).2.preserveComments = p.preserveComments := by
  unfold Parser.parseVariableDeclaration
  split
  next bi p₁ heq =>
    split <;> rename_i heq2 <;>
      (rw [pcOf Parser.parseInitializer pcParseInitializer heq2];
       exact pcOf Parser.parserBindingIdentifier pcParserBindingIdentifier heq)
  next p₁ heq =>
    rw [pcNextToken]
    exact pcOf Parser.parserBindingIdentifier pcParserBindingIdentifier heq
  next e p₁ heq => exact pcOf Parser.parserBindingIdentifier pcParserBindingIdentifier heq
  next p₁ heq => exact pcOf Parser.parserBindingIdentifier pcParserBindingIdentifier heq
  next p₁ heq => exact pcOf Parser.parserBindingIdentifier pcParserBindingIdentifier heq

/-- Parser::parse_module_specifier never changes the flag. -/
theorem pcParseModuleSpecifier (p : Parser) :
    (p.parseModuleSpecifier).2.preserveComments = p.preserveComments := by
  unfold Parser.parseModuleSpecifier
  split
  next p₁ heq =>
    split <;> rename_i heq2 <;>
      (rw [pcOf (fun q => q.expectToken .stringLiteral) (fun q => pcExpectToken q .stringLiteral) heq2];
       exact pcOf Parser.peekToken pcPeekToken heq)
  next p₁ heq => exact pcOf Parser.peekToken pcPeekToken heq
  next p₁ heq => exact pcOf Parser.peekToken pcPeekToken heq
  next p₁ heq => exact pcOf Parser.peekToken pcPeekToken heq

/-- Parser::parse_from_clause never changes the flag. -/
theorem pcParseFromClause (p : Parser) :
    (p.parseFromClause).2.preserveComments = p.preserveComments := by
  unfold Parser.parseFromClause
  split
  next t p₁ heq =>
    split
    · exact pcOf Parser.nextToken pcNextToken heq
    · rw [pcParseModuleSpecifier]
      exact pcOf Parser.nextToken pcNextToken heq
  next p₁ heq => exact pcOf Parser.nextToken pcNextToken heq
  next p₁ heq => exact pcOf Parser.nextToken pcNextToken heq

/-- Loop of Parser::parse_named_imports never changes the flag. -/
theorem pcParseNamedImportsLoop (fuel : Nat) :
    ∀ (p : Parser) (acc : List String),
      (Parser.parseNamedImportsLoop fuel p acc).2.preserveComments
        = p.preserveComments := by
  induction fuel with
  | zero => intro p acc; rfl
  | succ fuel ih =>
    intro p acc
    simp only [Parser.parseNamedImportsLoop]
    split
    next p₁ heq =>
      rw [ih]
      exact pcOf Parser.nextToken pcNextToken heq
    next p₁ heq =>
      rw [ih]
      exact pcOf Parser.nextToken pcNextToken heq
    next p₁ heq => exact pcOf Parser.nextToken pcNextToken heq
    next t p₁ x1 x2 x3 x4 =>
      first
      | exact pcOf Parser.nextToken pcNextToken x1
      | exact pcOf Parser.nextToken pcNextToken x2
      | exact pcOf Parser.nextToken pcNextToken x3
      | exact pcOf Parser.nextToken pcNextToken x4
    next p₁ heq => exact pcOf Parser.nextToken pcNextToken heq
    next p₁ heq => exact pcOf Parser.nextToken pcNextToken heq

/-- Parser::parse_named_imports never changes the flag. -/
theorem pcParseNamedImports (fuel : Nat) (p : Parser) :
    (p.parseNamedImports fuel).2.preserveComments = p.preserveComments := by
  unfold Parser.parseNamedImports
  split
  next p₁ heq =>
    rw [pcParseNamedImportsLoop]
    exact pcOf (fun q => q.expectToken .leftBrace) (fun q => pcExpectToken q .leftBrace) heq
  next e p₁ heq =>
    exact pcOf (fun q => q.expectToken .leftBrace) (fun q => pcExpectToken q .leftBrace) heq
  next p₁ heq =>
    exact pcOf (fun q => q.expectToken .leftBrace) (fun q => pcExpectToken q .leftBrace) heq
  next p₁ heq =>
    exact pcOf (fun q => q.expectToken .leftBrace) (fun q => pcExpectToken q .leftBrace) heq

/-- Parser::parse_import_clause never changes the flag. -/
theorem pcParseImportClause (fuel : Nat) (p : Parser) :
    (p.parseImportClause fuel).2.preserveComments = p.preserveComments := by
  unfold Parser.parseImportClause
  split
  next p₁ heq =>
    rw [pcParseNamedImports]
    exact pcOf Parser.peekToken pcPeekToken heq
  next p₁ heq => exact pcOf Parser.peekToken pcPeekToken heq
  next p₁ heq => exact pcOf Parser.peekToken pcPeekToken heq
  next p₁ heq => exact pcOf Parser.peekToken pcPeekToken heq

/-- Parser::parse_import_declaration never changes the flag. -/
theorem pcParseImportDeclaration (fuel : Nat) (p : Parser) :
    (p.parseImportDeclaration fuel).2.preserveComments = p.preserveComments := by
  unfold Parser.parseImportDeclaration
  split
  next ic p₁ heq =>
    split <;> rename_i heq2 <;>
      (rw [pcOf Parser.parseFromClause pcParseFromClause heq2];
       exact pcOf (fun q => q.parseImportClause fuel) (fun q => pcParseImportClause fuel q) heq)
  next p₁ heq =>
    split <;> rename_i heq2 <;>
      (rw [pcOf Parser.parseModuleSpecifier pcParseModuleSpecifier heq2];
       exact pcOf (fun q => q.parseImportClause fuel) (fun q => pcParseImportClause fuel q) heq)
  next e p₁ heq =>
    exact pcOf (fun q => q.parseImportClause fuel) (fun q => pcParseImportClause fuel q) heq
  next p₁ heq =>
    exact pcOf (fun q => q.parseImportClause fuel) (fun q => pcParseImportClause fuel q) heq
  next p₁ heq =>
    exact pcOf (fun q => q.parseImportClause fuel) (fun q => pcParseImportClause fuel q) heq

/-- Parser::parse_comment never changes the flag. -/
theorem pcParseComment (p : Parser) :
    (p.parseComment).2.preserveComments = p.preserveComments := rfl

/-- Parser::parse_statement never changes the flag. -/
theorem pcParseStatement (fuel : Nat) :
    ∀ p : Parser,
      (Parser.parseStatement fuel p).2.preserveComments = p.preserveComments := by
  induction fuel with
  | zero => intro p; rfl
  | succ fuel ih =>
    intro p
    simp only [Parser.parseStatement]
    split
    next p₁ heq =>
      split
      · rw [pcParseComment]
        exact pcOf Parser.nextToken pcNextToken heq
      · rw [ih]
        exact pcOf Parser.nextToken pcNextToken heq
    next p₁ heq =>
      rw [pcParseImportDeclaration]
      exact pcOf Parser.nextToken pcNextToken heq
    next p₁ heq =>
      rw [pcParseVariableDeclaration]
      exact pcOf Parser.nextToken pcNextToken heq
    next p₁ heq =>
      rw [pcParseVariableDeclaration]
      exact pcOf Parser.nextToken pcNextToken heq
    next p₁ heq =>
      rw [pcParseVariableDeclaration]
      exact pcOf Parser.nextToken pcNextToken heq
    next t p₁ x1 x2 x3 x4 x5 x6 =>
      first
      | exact pcOf Parser.nextToken pcNextToken x1
      | exact pcOf Parser.nextToken pcNextToken x2
      | exact pcOf Parser.nextToken pcNextToken x3
      | exact pcOf Parser.nextToken pcNextToken x4
      | exact pcOf Parser.nextToken pcNextToken x5
      | exact pcOf Parser.nextToken pcNextToken x6
    next p₁ heq => exact pcOf Parser.nextToken pcNextToken heq
    next p₁ heq => exact pcOf Parser.nextToken pcNextToken heq

/-- Parser::parse_variable_declaration only ever returns a
VariableStatement, never a Comment. -/
theorem vdNotComment (p : Parser) (s : Statement) (p' : Parser)
    (h : p.parseVariableDeclaration = (PRes.ok (some s), p')) :
    s ≠ Statement.comment := by
  unfold Parser.parseVariableDeclaration at h
  split at h
  · split at h
    · simp only [Prod.mk.injEq, PRes.ok.injEq, Option.some.injEq] at h
      rw [← h.1]
      exact fun hc => Statement.noConfusion hc
    · simp at h
    · simp at h
    · simp at h
  · simp at h
  · simp at h
  · simp at h
  · simp at h

/-- Parser::parse_import_declaration only ever returns an
ImportDeclaration, never a Comment. -/
theorem idNotComment (fuel : Nat) (p : Parser) (s : Statement) (p' : Parser)
    (h : p.parseImportDeclaration fuel = (PRes.ok (some s), p')) :
    s ≠ Statement.comment := by
  unfold Parser.parseImportDeclaration at h
  split at h
  · split at h
    · simp only [Prod.mk.injEq, PRes.ok.injEq, Option.some.injEq] at h
      rw [← h.1]
      exact fun hc => Statement.noConfusion hc
    · simp at h
    · simp at h
    · simp at h
    · simp at h
  · split at h
    · simp only [Prod.mk.injEq, PRes.ok.injEq, Option.some.injEq] at h
      rw [← h.1]
      exact fun hc => Statement.noConfusion hc
    · simp at h
    · simp at h
    · simp at h
    · simp at h
  · simp at h
  · simp at h
  · simp at h

/-- When comment preservation is off, Parser::parse_statement never
returns a Comment statement. -/
theorem psNotComment (fuel : Nat) :
    ∀ (p : Parser) (s : Statement) (p' : Parser),
      p.preserveComments = false →
      Parser.parseStatement fuel p = (PRes.ok (some s), p') →
      s ≠ Statement.comment := by
  induction fuel with
  | zero =>
    intro p s p' hf h
    simp [Parser.parseStatement] at h
  | succ fuel ih =>
    intro p s p' hf h
    simp only [Parser.parseStatement] at h
    split at h
    · rename_i p₁ heq
      have hp₁ : p₁.preserveComments = false := by
        rw [pcOf Parser.nextToken pcNextToken heq, hf]
      rw [hp₁] at h
      simp only [Bool.false_eq_true, if_false] at h
      exact ih p₁ s p' hp₁ h
    · exact idNotComment fuel _ s p' h
    · exact vdNotComment _ s p' h
    · exact vdNotComment _ s p' h
    · exact vdNotComment _ s p' h
    · simp at h
    · simp at h
    · simp at h

/-- When comment preservation is off and the accumulator holds no Comment,
the parse_script loop never delivers a Comment statement in its Script. -/
theorem pslNoComment (fuel : Nat) :
    ∀ (p : Parser) (acc : List Statement) (script : Script) (p' : Parser),
      p.preserveComments = false →
      (∀ x ∈ acc, x ≠ Statement.comment) →
      Parser.parseScriptLoop fuel p acc = (PRes.ok script, p') →
      ∀ x ∈ script.body.stmts, x ≠ Statement.comment := by
  induction fuel with
  | zero =>
    intro p acc script p' hf hacc h
    simp [Parser.parseScriptLoop] at h
  | succ fuel ih =>
    intro p acc script p' hf hacc h
    simp only [Parser.parseScriptLoop] at h
    split at h
    · rename_i stmt p₁ heq
      have hstmt : stmt ≠ Statement.comment :=
        psNotComment (fuel + 1) p stmt p₁ hf heq
      have hp₁ : p₁.preserveComments = false := by
        rw [pcOf (Parser.parseStatement (fuel + 1))
              (pcParseStatement (fuel + 1)) heq, hf]
      refine ih p₁ (acc ++ [stmt]) script p' hp₁ ?_ h
      intro x hx
      rcases List.mem_append.1 hx with hx | hx
      · exact hacc x hx
      · rw [List.mem_singleton.1 hx]
        exact hstmt
    · rename_i p₁ heq
      simp only [Prod.mk.injEq, PRes.ok.injEq] at h
      rw [← h.1]
      exact hacc
    · simp at h
    · simp at h
    · simp at h

/-- Claim C10: every parser constructed through Parser::new has comment
preservation disabled, and a successful parse_script result never
contains a Comment statement (SingleLineComment tokens are dropped at
statement dispatch); quantified over any tokenizer state and any fuel
bound on the parsing loops. -/
theorem C10_new_parser_never_emits_comment
    (fuel : Nat) (t : Tokenizer) (script : Script)
    (h : ((Parser.new t).parseScript fuel).1 = PRes.ok script) :
    (Parser.new t).preserveComments = false
  ∧ Statement.comment ∉ script.body.stmts := by
  refine ⟨rfl, ?_⟩
  rcases hp : (Parser.new t).parseScript fuel with ⟨r, p'⟩
  rw [hp] at h
  simp only at h
  unfold Parser.parseScript at hp
  rw [h] at hp
  intro hmem
  exact pslNoComment fuel (Parser.new t) [] script p' rfl
    (fun x hx => absurd hx (List.not_mem_nil x)) hp
    Statement.comment hmem rfl

/-- Claim C10, witness: the concrete source `let x` followed by a newline
parses successfully and its statement list contains no Comment. -/
theorem C10_witness :
    (Parser.new (Tokenizer.new "let x\n".toList)).preserveComments = false
  ∧ Statement.comment ∉ [Statement.variableStatement ⟨⟨"x"⟩, none⟩] :=
  C10_new_parser_never_emits_comment 16 (Tokenizer.new "let x\n".toList)
    ⟨⟨[Statement.variableStatement ⟨⟨"x"⟩, none⟩]⟩⟩ rfl
